import Mathlib

/-!
Shallow embedding of `gitbackup.py`, a script that mirrors local git
repositories into bare repositories under a destination directory.

The version-control engine (GitPython) is modelled as a capability
interface: a repository handle `Repo` carries the observable state the
script reads (working directory, dirtiness, remote name/url pairs), and
the engine primitives the script calls (create/delete remote, bare init,
mirror push) become pure state transitions recorded in an operation log.
`git.Repo(path)` is abstracted as a function `openRepo : Path → Option Repo`
(`none` models `InvalidGitRepositoryError`), `os.walk` as a function
`walk : Path → List Path` returning the directory paths in walk order,
and `os.path.abspath` as a function parameter `abspath`.
-/

namespace Gitbackup

abbrev Path := String

/-- Boolean test that the first character list is an initial run of the
second (used to build the substring test below). -/
def leadsWith : List Char → List Char → Bool
  | [], _ => true
  | _ :: _, [] => false
  | a :: as, b :: bs => a == b && leadsWith as bs

/-- Boolean contiguous-sublist test on character lists. -/
def hasSub (needle : List Char) : List Char → Bool
  | [] => needle.isEmpty
  | b :: bs => leadsWith needle (b :: bs) || hasSub needle bs

/-- Python substring containment `needle in hay` on strings. -/
def strIn (needle hay : String) : Bool := hasSub needle.data hay.data

/-- Python `os.path.split(p)[1]`: the text after the last slash of `p`. -/
def splitTail (p : Path) : String :=
  String.mk ((p.data.reverse.takeWhile (fun c => c != '/')).reverse)

/-- Python `os.path.join(a, b)` (posixpath semantics, two arguments). -/
def os_path_join (a b : Path) : Path :=
  if leadsWith ['/'] b.data then b
  else if a = "" || leadsWith ['/'] a.data.reverse then a ++ b
  else a ++ "/" ++ b

/-- The characters Python 2 urllib never percent-encodes
(letters, digits, underscore, dot, dash). -/
def alwaysSafeChar (c : Char) : Bool :=
  c.isAlpha || c.isDigit || c == '_' || c == '.' || c == '-'

/-- Upper-case hexadecimal digit for a value below 16. -/
def hexDigitChar (n : Nat) : Char :=
  if n < 10 then Char.ofNat (48 + n) else Char.ofNat (55 + n)

/-- Percent-encoding of one character, keeping the slash (urllib.quote
with its default safe set). -/
def quoteChar (c : Char) : List Char :=
  if alwaysSafeChar c || c == '/' then [c]
  else ['%', hexDigitChar (c.toNat % 256 / 16), hexDigitChar (c.toNat % 256 % 16)]

/-- Python `urllib.pathname2url` on posix: percent-encode the path. -/
def pathname2url (p : Path) : String :=
  String.mk ((p.data.map quoteChar).flatten)

/-- Observable state of one source repository behind the GitPython
handle: working-tree root, dirtiness, and the ordered remote list. -/
structure Repo where
  working_dir : Path
  dirty : Bool
  remotes : List (String × String)
deriving DecidableEq, Repr

/-- The names of the configured remotes, `[remote.name for remote in repo.remotes]`. -/
def Repo.remoteNames (r : Repo) : List String := r.remotes.map Prod.fst

/-- Lookup `repo.remote(name).url`: the url of the first remote with that name. -/
def Repo.remoteUrl (r : Repo) (n : String) : Option String :=
  (r.remotes.find? (fun x => x.1 == n)).map Prod.snd

/-- Engine call `repo.create_remote(name, url)`: append a remote entry. -/
def Repo.create_remote (r : Repo) (n u : String) : Repo :=
  { r with remotes := r.remotes ++ [(n, u)] }

/-- Engine call `repo.delete_remote(remote)`: drop the entries with that name. -/
def Repo.delete_remote (r : Repo) (n : String) : Repo :=
  { r with remotes := r.remotes.filter (fun x => x.1 != n) }

/-- Constructor `Mirror.__init__`: derive project name, destination path and mirror
url from the source path and the destination root; open the repository
(`none` when the directory is not managed by git). -/
structure Mirror where
  remote_name : String
  source : Path
  project_name : String
  remote_path : Path
  remote_url : String
  repo : Option Repo
deriving DecidableEq, Repr

def mkMirror (openRepo : Path → Option Repo) (remote_name : String)
    (source : Path) (dest : Path) : Mirror :=
  { remote_name := remote_name
    source := source
    project_name := splitTail source
    remote_path := os_path_join dest (splitTail source)
    remote_url := "file://" ++ pathname2url (os_path_join dest (splitTail source))
    repo := openRepo source }

@[simp] theorem mkMirror_source (openRepo : Path → Option Repo)
    (rn source dest : String) :
    (mkMirror openRepo rn source dest).source = source := rfl

@[simp] theorem mkMirror_remote_name (openRepo : Path → Option Repo)
    (rn source dest : String) :
    (mkMirror openRepo rn source dest).remote_name = rn := rfl

theorem mkMirror_repo (openRepo : Path → Option Repo)
    (rn source dest : String) :
    (mkMirror openRepo rn source dest).repo = openRepo source := rfl

/-- Equality `Mirror.__eq__`: compares the working directories of the two
repository handles. (In Python a `None` handle would raise
`AttributeError`; the method is only ever reached on mirrors whose
validation succeeded, where the handle is present, and there this
definition agrees with the source.) -/
def Mirror.beq (a b : Mirror) : Bool :=
  (a.repo.map Repo.working_dir) == (b.repo.map Repo.working_dir)

/-- The four validation failures of `Mirror.prepare`.
`NotVersionControlled` and `NestedOrMismatchedRoot` are raised as
`MirrorWarning`, `DirtySource` and `RemoteNameConflict` as `MirrorError`. -/
inductive PrepareFailure
  | NotVersionControlled
  | NestedOrMismatchedRoot
  | DirtySource
  | RemoteNameConflict
deriving DecidableEq, Repr

/-- Whether the failure is raised as a `MirrorWarning` in the source. -/
def PrepareFailure.isWarning : PrepareFailure → Bool
  | .NotVersionControlled => true
  | .NestedOrMismatchedRoot => true
  | .DirtySource => false
  | .RemoteNameConflict => false

/-- Validation `Mirror.prepare(force_remote)`: the four ordered validation checks,
as raised exceptions (`Except.error`) or silent success. -/
def Mirror.prepare (m : Mirror) (force_remote : Bool) : Except PrepareFailure Unit :=
  match m.repo with
  | none => .error .NotVersionControlled
  | some repo =>
    if m.source ≠ repo.working_dir then .error .NestedOrMismatchedRoot
    else if repo.dirty then .error .DirtySource
    else if m.remote_name ∈ repo.remoteNames
        ∧ repo.remoteUrl m.remote_name ≠ some m.remote_url
        ∧ force_remote = false then .error .RemoteNameConflict
    else .ok ()

/-- The engine primitives `Mirror.update` invokes, in invocation order. -/
inductive GitOp
  | createRemote (name url : String)
  | deleteRemote (name : String)
  | initBare (path : Path)
  | pushMirror (name : String)
deriving DecidableEq, Repr

/-- Remote-configuration churn: remote creation or deletion. -/
def GitOp.isRemoteChurn : GitOp → Bool
  | .createRemote _ _ => true
  | .deleteRemote _ => true
  | .initBare _ => false
  | .pushMirror _ => false

/-- Result of one `Mirror.update` call: the repository handle state, the
set of paths existing on disk (bare mirrors), and the engine operations
performed. -/
structure UpdateResult where
  repo : Repo
  fs : List Path
  ops : List GitOp
deriving DecidableEq, Repr

/-- Second half of `Mirror.update`: lazily initialize the bare mirror
when its path does not yet exist, then push with mirror semantics. -/
def updateFsPush (m : Mirror) (repo1 : Repo) (ops1 : List GitOp)
    (fs : List Path) : UpdateResult :=
  if m.remote_path ∈ fs then
    { repo := repo1, fs := fs, ops := ops1 ++ [GitOp.pushMirror m.remote_name] }
  else
    { repo := repo1, fs := fs ++ [m.remote_path],
      ops := ops1 ++ [GitOp.initBare m.remote_path, GitOp.pushMirror m.remote_name] }

/-- Method `Mirror.update()`: reconcile the remote (absent → create; wrong url →
delete and recreate; correct → leave), then init the bare mirror if
missing, then push. `repo` is the current state behind `self.repo`,
`fs` the set of existing destination paths. -/
def Mirror.update (m : Mirror) (repo : Repo) (fs : List Path) : UpdateResult :=
  if m.remote_name ∉ repo.remoteNames then
    updateFsPush m (repo.create_remote m.remote_name m.remote_url)
      [GitOp.createRemote m.remote_name m.remote_url] fs
  else if repo.remoteUrl m.remote_name ≠ some m.remote_url then
    updateFsPush m ((repo.delete_remote m.remote_name).create_remote m.remote_name m.remote_url)
      [GitOp.deleteRemote m.remote_name, GitOp.createRemote m.remote_name m.remote_url] fs
  else
    updateFsPush m repo [] fs

/-- One step of the recursive discovery loop body: skip the directory
when its path string contains `.git`, and otherwise append it unless it
was already collected. -/
def walkStep (acc : List Path) (dirpath : Path) : List Path :=
  if strIn ".git" dirpath then acc
  else if dirpath ∈ acc then acc else acc ++ [dirpath]

/-- The recursive branch of `BackupManager.__init__`: for each source in
order, walk its subtree and collect candidate directories with the
`.git` filter and in-place de-duplication. `walk` abstracts `os.walk`,
returning the visited directory paths in walk order. -/
def recursiveSources (walk : Path → List Path) (sources : List Path) : List Path :=
  sources.foldl (fun acc source => (walk source).foldl walkStep acc) []

/-- State of `BackupManager` after `__init__`: resolved configuration and the
final candidate source list. -/
structure BackupManager where
  dest : Path
  remote_name : String
  sources : List Path
  recursive : Bool
  force_remote : Bool
deriving DecidableEq, Repr

/-- Constructor `BackupManager.__init__`: absolutize the requested sources, then in
recursive mode expand them by walking; `abspath` abstracts
`os.path.abspath`. -/
def mkBackupManager (abspath : Path → Path) (walk : Path → List Path)
    (remote_name : String) (sources : List Path) (dest : Path)
    (recursive : Bool) (force_remote : Bool) : BackupManager :=
  { dest := dest
    remote_name := remote_name
    sources :=
      if recursive then recursiveSources walk (sources.map abspath)
      else sources.map abspath
    recursive := recursive
    force_remote := force_remote }

instance {ε α : Type} [DecidableEq ε] [DecidableEq α] : DecidableEq (Except ε α) :=
  fun a b =>
    match a, b with
    | .error e1, .error e2 =>
      if h : e1 = e2 then .isTrue (by rw [h]) else .isFalse (by intro hc; cases hc; exact h rfl)
    | .ok v1, .ok v2 =>
      if h : v1 = v2 then .isTrue (by rw [h]) else .isFalse (by intro hc; cases hc; exact h rfl)
    | .error _, .ok _ => .isFalse (by intro hc; cases hc)
    | .ok _, .error _ => .isFalse (by intro hc; cases hc)

/-- Outcome of `build_mirrors`: either the accepted mirror list or the
source path named by the fatal `BackupError`, together with the skip
reports written to stderr. -/
structure BuildOutcome where
  result : Except Path (List Mirror)
  reports : List (Path × PrepareFailure)
deriving DecidableEq, Repr

/-- The loop of `BackupManager.build_mirrors`: prepare each candidate,
report `MirrorError` always and `MirrorWarning` only when not recursive,
and on success abort with `BackupError` when an accepted mirror compares
equal, else accept. -/
def buildLoop (openRepo : Path → Option Repo) (mgr : BackupManager) :
    List Path → List Mirror → List (Path × PrepareFailure) → BuildOutcome
  | [], ms, rs => ⟨.ok ms, rs⟩
  | s :: rest, ms, rs =>
    match (mkMirror openRepo mgr.remote_name s mgr.dest).prepare mgr.force_remote with
    | .error f =>
      if f.isWarning && mgr.recursive then buildLoop openRepo mgr rest ms rs
      else buildLoop openRepo mgr rest ms (rs ++ [(s, f)])
    | .ok _ =>
      if ms.any (fun m0 => (mkMirror openRepo mgr.remote_name s mgr.dest).beq m0) then
        ⟨.error s, rs⟩
      else buildLoop openRepo mgr rest (ms ++ [mkMirror openRepo mgr.remote_name s mgr.dest]) rs

/-- Method `BackupManager.build_mirrors()`. -/
def BackupManager.build_mirrors (openRepo : Path → Option Repo)
    (mgr : BackupManager) : BuildOutcome :=
  buildLoop openRepo mgr mgr.sources [] []

/-- Method `Mirror.update()` with the external push outcome made explicit:
`pushOk` tells, per source path, whether the mirrored push succeeds.
Returns the raised exception (carrying the source) or success, together
with the filesystem state after the call (the remote reconciliation and
the lazy bare init happen before the push, so they persist even when the
push raises). -/
def Mirror.updateE (pushOk : Path → Bool) (m : Mirror) (fs : List Path) :
    Except Path Unit × List Path :=
  match m.repo with
  | none => (.error m.source, fs)
  | some repo =>
    ((if pushOk m.source then .ok () else .error m.source), (m.update repo fs).fs)

/-- Outcome of the `update_all` loop: which sources had `update()`
invoked, the uncaught exception that ended the loop (if any), and the
final filesystem state. -/
structure RunOutcome where
  attempted : List Path
  failed : Option Path
  fs : List Path
deriving DecidableEq, Repr

/-- The loop of `BackupManager.update_all`: update each mirror in order;
an exception from `update()` is not caught and ends the loop. -/
def update_all_loop (pushOk : Path → Bool) :
    List Mirror → List Path → List Path → RunOutcome
  | [], fs, att => ⟨att, none, fs⟩
  | m :: rest, fs, att =>
    match (m.updateE pushOk fs).1 with
    | .error e => ⟨att ++ [m.source], some e, (m.updateE pushOk fs).2⟩
    | .ok _ => update_all_loop pushOk rest (m.updateE pushOk fs).2 (att ++ [m.source])

/-- Method `BackupManager.update_all()`: build the mirrors (a `BackupError`
propagates, in which case no update is attempted), then update each in
order. -/
def BackupManager.update_all (openRepo : Path → Option Repo)
    (pushOk : Path → Bool) (mgr : BackupManager) (fs0 : List Path) :
    List (Path × PrepareFailure) × Except Path RunOutcome :=
  match (mgr.build_mirrors openRepo).result with
  | .error s => ((mgr.build_mirrors openRepo).reports, .error s)
  | .ok ms => ((mgr.build_mirrors openRepo).reports, .ok (update_all_loop pushOk ms fs0 []))

/-! ### Lemmas about the remote configuration -/

theorem find?_key_eq_none (l : List (String × String)) (n : String)
    (h : n ∉ l.map Prod.fst) : l.find? (fun x => x.1 == n) = none := by
  rw [List.find?_eq_none]
  intro x hx hbeq
  exact h (List.mem_map.mpr ⟨x, hx, eq_of_beq hbeq⟩)

theorem remoteUrl_create_self (r : Repo) (n u : String)
    (h : n ∉ r.remoteNames) : (r.create_remote n u).remoteUrl n = some u := by
  unfold Repo.create_remote Repo.remoteUrl
  rw [List.find?_append, find?_key_eq_none r.remotes n h]
  simp

theorem not_mem_delete_remoteNames (r : Repo) (n : String) :
    n ∉ (r.delete_remote n).remoteNames := by
  unfold Repo.delete_remote Repo.remoteNames
  simp only [List.mem_map, List.mem_filter]
  rintro ⟨x, ⟨_, hne⟩, hx⟩
  rw [hx] at hne
  simp at hne

theorem remoteUrl_delete_create (r : Repo) (n u : String) :
    ((r.delete_remote n).create_remote n u).remoteUrl n = some u :=
  remoteUrl_create_self _ _ _ (not_mem_delete_remoteNames r n)

theorem mem_remoteNames_of_remoteUrl (r : Repo) (n u : String)
    (h : r.remoteUrl n = some u) : n ∈ r.remoteNames := by
  unfold Repo.remoteUrl at h
  cases hf : r.remotes.find? (fun x => x.1 == n) with
  | none => rw [hf] at h; simp at h
  | some x =>
    have hx := List.find?_some hf
    have hmem := List.mem_of_find?_eq_some hf
    exact List.mem_map.mpr ⟨x, hmem, eq_of_beq hx⟩

/-! ### Lemmas about `Mirror.update` -/

theorem updateFsPush_repo (m : Mirror) (repo1 : Repo) (ops1 : List GitOp)
    (fs : List Path) : (updateFsPush m repo1 ops1 fs).repo = repo1 := by
  unfold updateFsPush
  split <;> rfl

theorem updateFsPush_mem_fs (m : Mirror) (repo1 : Repo) (ops1 : List GitOp)
    (fs : List Path) : m.remote_path ∈ (updateFsPush m repo1 ops1 fs).fs := by
  unfold updateFsPush
  split
  next h => exact h
  next h => simp

theorem updateFsPush_churn (m : Mirror) (repo1 : Repo) (ops1 : List GitOp)
    (fs : List Path) :
    (updateFsPush m repo1 ops1 fs).ops.filter GitOp.isRemoteChurn
      = ops1.filter GitOp.isRemoteChurn := by
  unfold updateFsPush
  split <;> simp [GitOp.isRemoteChurn]

theorem update_remoteUrl (m : Mirror) (repo : Repo) (fs : List Path) :
    ((m.update repo fs).repo).remoteUrl m.remote_name = some m.remote_url := by
  unfold Mirror.update
  by_cases h1 : m.remote_name ∈ repo.remoteNames
  · rw [if_neg (not_not_intro h1)]
    by_cases h2 : repo.remoteUrl m.remote_name = some m.remote_url
    · rw [if_neg (not_not_intro h2), updateFsPush_repo]
      exact h2
    · rw [if_pos h2, updateFsPush_repo]
      exact remoteUrl_delete_create _ _ _
  · rw [if_pos h1, updateFsPush_repo]
    exact remoteUrl_create_self _ _ _ h1

theorem update_mem_fs (m : Mirror) (repo : Repo) (fs : List Path) :
    m.remote_path ∈ (m.update repo fs).fs := by
  unfold Mirror.update
  split_ifs <;> exact updateFsPush_mem_fs _ _ _ _

/-- When the remote is already correct and the mirror path already
exists, `update()` changes nothing and only pushes. -/
theorem update_of_correct (m : Mirror) (repo1 : Repo) (fs1 : List Path)
    (hurl : repo1.remoteUrl m.remote_name = some m.remote_url)
    (hfs : m.remote_path ∈ fs1) :
    m.update repo1 fs1 = ⟨repo1, fs1, [GitOp.pushMirror m.remote_name]⟩ := by
  have hmem := mem_remoteNames_of_remoteUrl repo1 m.remote_name m.remote_url hurl
  unfold Mirror.update
  rw [if_neg (not_not_intro hmem), if_neg (not_not_intro hurl)]
  unfold updateFsPush
  rw [if_pos hfs]
  rfl

/-- Claim C3: remote reconciliation in `update()` is idempotent: an
absent remote is created with the mirror url; a remote with a different
url is deleted and recreated; a remote with the correct url is left
untouched (no remote churn), so a second `update()` with no source
changes leaves the remote configuration and the filesystem exactly as
the first call did and performs no remote operation at all on the
second call (its only engine operation is the mirrored push). -/
theorem c3_update_idempotent (m : Mirror) (repo : Repo) (fs : List Path) :
    (m.remote_name ∉ repo.remoteNames →
      ((m.update repo fs).repo).remotes
        = repo.remotes ++ [(m.remote_name, m.remote_url)])
    ∧ (m.remote_name ∈ repo.remoteNames →
        repo.remoteUrl m.remote_name ≠ some m.remote_url →
      ((m.update repo fs).repo)
        = (repo.delete_remote m.remote_name).create_remote m.remote_name m.remote_url)
    ∧ (repo.remoteUrl m.remote_name = some m.remote_url →
      ((m.update repo fs).repo = repo
        ∧ (m.update repo fs).ops.filter GitOp.isRemoteChurn = []))
    ∧ ((m.update (m.update repo fs).repo (m.update repo fs).fs).repo
          = (m.update repo fs).repo
      ∧ (m.update (m.update repo fs).repo (m.update repo fs).fs).fs
          = (m.update repo fs).fs
      ∧ (m.update (m.update repo fs).repo (m.update repo fs).fs).ops
          = [GitOp.pushMirror m.remote_name]) := by
  refine ⟨?_, ?_, ?_, ?_⟩
  · intro h1
    unfold Mirror.update
    rw [if_pos h1, updateFsPush_repo]
    rfl
  · intro hmem hne
    unfold Mirror.update
    rw [if_neg (not_not_intro hmem), if_pos hne, updateFsPush_repo]
  · intro heq
    have hmem := mem_remoteNames_of_remoteUrl repo m.remote_name m.remote_url heq
    constructor
    · unfold Mirror.update
      rw [if_neg (not_not_intro hmem), if_neg (not_not_intro heq), updateFsPush_repo]
    · unfold Mirror.update
      rw [if_neg (not_not_intro hmem), if_neg (not_not_intro heq), updateFsPush_churn]
      rfl
  · rw [update_of_correct m (m.update repo fs).repo (m.update repo fs).fs
      (update_remoteUrl m repo fs) (update_mem_fs m repo fs)]
    exact ⟨rfl, rfl, rfl⟩

/-- Concrete inputs used to exercise the theorems. -/
def repoClean : Repo := ⟨"/work/alpha", false, []⟩

def repoCorrect : Repo := ⟨"/work/alpha", false, [("gitbackup", "file:///backup/alpha")]⟩

def openRepoW : Path → Option Repo :=
  fun p => if p = "/work/alpha" then some repoClean else none

/-- Witness for C3, exercising the absent-remote branch, the
already-correct branch and the idempotence conjunct of the theorem at a
concrete mirror. -/
theorem c3_update_idempotent_witness :
    (((mkMirror openRepoW "gitbackup" "/work/alpha" "/backup").update repoClean []).repo).remotes
      = repoClean.remotes ++ [("gitbackup", "file:///backup/alpha")]
    ∧ ((mkMirror openRepoW "gitbackup" "/work/alpha" "/backup").update repoCorrect []).repo
        = repoCorrect
    ∧ ((mkMirror openRepoW "gitbackup" "/work/alpha" "/backup").update
          ((mkMirror openRepoW "gitbackup" "/work/alpha" "/backup").update repoClean []).repo
          ((mkMirror openRepoW "gitbackup" "/work/alpha" "/backup").update repoClean []).fs).ops
        = [GitOp.pushMirror "gitbackup"] :=
  ⟨(c3_update_idempotent (mkMirror openRepoW "gitbackup" "/work/alpha" "/backup")
      repoClean []).1 (by decide),
   ((c3_update_idempotent (mkMirror openRepoW "gitbackup" "/work/alpha" "/backup")
      repoCorrect []).2.2.1 (by decide)).1,
   (c3_update_idempotent (mkMirror openRepoW "gitbackup" "/work/alpha" "/backup")
      repoClean []).2.2.2.2.2⟩

/-- Claim C8: for a clean source with no pre-existing remote of the
configured name, the first `update()` creates exactly one remote whose
url is the file scheme applied to the percent-encoded destination mirror
path (destination root joined with the final path segment of the
source), initializes the destination path as a bare repository exactly
when it does not yet exist, and ends with a mirrored push over that
remote. -/
theorem c8_first_update (openRepo : Path → Option Repo) (rn source dest : String)
    (repo : Repo) (fs : List Path)
    (_hrepo : (mkMirror openRepo rn source dest).repo = some repo)
    (_hclean : repo.dirty = false)
    (hno : rn ∉ repo.remoteNames) :
    ((mkMirror openRepo rn source dest).update repo fs).repo.remotes
        = repo.remotes ++ [(rn, (mkMirror openRepo rn source dest).remote_url)]
    ∧ (mkMirror openRepo rn source dest).remote_url
        = "file://" ++ pathname2url (os_path_join dest (splitTail source))
    ∧ (mkMirror openRepo rn source dest).remote_path
        = os_path_join dest (splitTail source)
    ∧ ((mkMirror openRepo rn source dest).update repo fs).fs
        = (if (mkMirror openRepo rn source dest).remote_path ∈ fs then fs
           else fs ++ [(mkMirror openRepo rn source dest).remote_path])
    ∧ ((mkMirror openRepo rn source dest).update repo fs).ops
        = [GitOp.createRemote rn (mkMirror openRepo rn source dest).remote_url]
          ++ (if (mkMirror openRepo rn source dest).remote_path ∈ fs then []
              else [GitOp.initBare (mkMirror openRepo rn source dest).remote_path])
          ++ [GitOp.pushMirror rn] := by
  refine ⟨?_, rfl, rfl, ?_, ?_⟩ <;>
    by_cases hf : os_path_join dest (splitTail source) ∈ fs <;>
      simp [Mirror.update, hno, updateFsPush, Repo.create_remote, hf, mkMirror]

/-- Witness for C8: the theorem applied at a concrete clean repository
with no remotes and an empty destination filesystem. -/
theorem c8_first_update_witness :
    ((mkMirror openRepoW "gitbackup" "/work/alpha" "/backup").update repoClean []).repo.remotes
        = repoClean.remotes
          ++ [("gitbackup", (mkMirror openRepoW "gitbackup" "/work/alpha" "/backup").remote_url)]
    ∧ (mkMirror openRepoW "gitbackup" "/work/alpha" "/backup").remote_url
        = "file://" ++ pathname2url (os_path_join "/backup" (splitTail "/work/alpha"))
    ∧ (mkMirror openRepoW "gitbackup" "/work/alpha" "/backup").remote_path
        = os_path_join "/backup" (splitTail "/work/alpha")
    ∧ ((mkMirror openRepoW "gitbackup" "/work/alpha" "/backup").update repoClean []).fs
        = (if (mkMirror openRepoW "gitbackup" "/work/alpha" "/backup").remote_path ∈ ([] : List Path)
           then ([] : List Path)
           else [] ++ [(mkMirror openRepoW "gitbackup" "/work/alpha" "/backup").remote_path])
    ∧ ((mkMirror openRepoW "gitbackup" "/work/alpha" "/backup").update repoClean []).ops
        = [GitOp.createRemote "gitbackup"
              (mkMirror openRepoW "gitbackup" "/work/alpha" "/backup").remote_url]
          ++ (if (mkMirror openRepoW "gitbackup" "/work/alpha" "/backup").remote_path ∈ ([] : List Path)
              then []
              else [GitOp.initBare (mkMirror openRepoW "gitbackup" "/work/alpha" "/backup").remote_path])
          ++ [GitOp.pushMirror "gitbackup"] :=
  c8_first_update openRepoW "gitbackup" "/work/alpha" "/backup" repoClean []
    (by decide) (by decide) (by decide)

/-! ### Lemmas about validation and `build_mirrors` -/

/-- Evaluation of `prepare` once the repository handle is known to be
open: the remaining three ordered checks. -/
theorem prepare_eval (m : Mirror) (repo : Repo) (force : Bool)
    (hr : m.repo = some repo) :
    m.prepare force =
      (if m.source ≠ repo.working_dir then .error .NestedOrMismatchedRoot
       else if repo.dirty then .error .DirtySource
       else if m.remote_name ∈ repo.remoteNames
           ∧ repo.remoteUrl m.remote_name ≠ some m.remote_url
           ∧ force = false then .error .RemoteNameConflict
       else .ok ()) := by
  rw [Mirror.prepare, hr]

/-- A successful `prepare` exposes an open repository rooted at the
source, a clean tree, and no unforced remote-name conflict. -/
theorem prepare_ok_elim (m : Mirror) (force : Bool)
    (h : m.prepare force = .ok ()) :
    ∃ repo, m.repo = some repo ∧ repo.working_dir = m.source
      ∧ repo.dirty = false
      ∧ ¬(m.remote_name ∈ repo.remoteNames
          ∧ repo.remoteUrl m.remote_name ≠ some m.remote_url
          ∧ force = false) := by
  cases hr : m.repo with
  | none => rw [Mirror.prepare, hr] at h; exact Except.noConfusion h
  | some repo =>
    rw [prepare_eval m repo force hr] at h
    split_ifs at h with h1 h2 h3 <;>
      first
        | exact Except.noConfusion h
        | exact ⟨repo, rfl, h1.symm, by simpa using h2, h3⟩
        | exact ⟨repo, rfl, (not_not.mp h1).symm, by simpa using h2, h3⟩

/-- Every mirror in an accepted list produced by the `build_mirrors`
loop either was in the starting accumulator or was built from one of the
remaining candidates and passed validation. -/
theorem buildLoop_ok_mem (openRepo : Path → Option Repo) (mgr : BackupManager) :
    ∀ (srcs : List Path) (ms0 : List Mirror) (rs0 : List (Path × PrepareFailure))
      (ms : List Mirror),
      (buildLoop openRepo mgr srcs ms0 rs0).result = .ok ms →
      ∀ m ∈ ms, m ∈ ms0
        ∨ (m.prepare mgr.force_remote = .ok ()
            ∧ ∃ s, s ∈ srcs ∧ m = mkMirror openRepo mgr.remote_name s mgr.dest) := by
  intro srcs
  induction srcs with
  | nil =>
    intro ms0 rs0 ms hok m hm
    rw [buildLoop] at hok
    simp only [Except.ok.injEq] at hok
    exact Or.inl (hok.symm ▸ hm)
  | cons s rest ih =>
    intro ms0 rs0 ms hok m hm
    rw [buildLoop] at hok
    split at hok
    · split at hok <;>
      · rcases ih _ _ _ hok m hm with h | ⟨hp, s2, hs2, hmk⟩
        · exact Or.inl h
        · exact Or.inr ⟨hp, s2, List.mem_cons_of_mem _ hs2, hmk⟩
    · next u hp =>
      split at hok
      · simp at hok
      · rcases ih _ _ _ hok m hm with h | ⟨hp2, s2, hs2, hmk⟩
        · rcases List.mem_append.mp h with h | h
          · exact Or.inl h
          · rw [List.mem_singleton] at h
            subst h
            exact Or.inr ⟨hp, s, List.mem_cons_self _ _, rfl⟩
        · exact Or.inr ⟨hp2, s2, List.mem_cons_of_mem _ hs2, hmk⟩

/-- Every source path whose `update()` is attempted by the update loop
is either in the starting accumulator or the source of a mirror in the
list. -/
theorem attempted_mem (pushOk : Path → Bool) :
    ∀ (ms : List Mirror) (fs att : List Path) (p : Path),
      p ∈ (update_all_loop pushOk ms fs att).attempted →
      p ∈ att ∨ ∃ m, m ∈ ms ∧ m.source = p := by
  intro ms
  induction ms with
  | nil =>
    intro fs att p hp
    rw [update_all_loop] at hp
    exact Or.inl hp
  | cons m rest ih =>
    intro fs att p hp
    rw [update_all_loop] at hp
    split at hp
    · simp only [List.mem_append, List.mem_singleton] at hp
      rcases hp with h | h
      · exact Or.inl h
      · exact Or.inr ⟨m, List.mem_cons_self _ _, h.symm⟩
    · rcases ih _ _ _ hp with h | ⟨m2, hm2, hsrc⟩
      · simp only [List.mem_append, List.mem_singleton] at h
        rcases h with h | h
        · exact Or.inl h
        · exact Or.inr ⟨m, List.mem_cons_self _ _, h.symm⟩
      · exact Or.inr ⟨m2, List.mem_cons_of_mem _ hm2, hsrc⟩

/-- Claim C9: every mirror in the list returned by `build_mirrors`
passed all four validation checks, so it has an open repository handle
whose working directory equals the mirror source path; in particular
`update()` and the duplicate-detection equality are only ever applied to
mirrors with an open repository. -/
theorem c9_accepted_mirrors_validated (openRepo : Path → Option Repo)
    (mgr : BackupManager) (ms : List Mirror)
    (hok : (mgr.build_mirrors openRepo).result = .ok ms) :
    ∀ m ∈ ms, m.prepare mgr.force_remote = .ok ()
      ∧ ∃ repo, m.repo = some repo ∧ repo.working_dir = m.source := by
  intro m hm
  rcases buildLoop_ok_mem openRepo mgr mgr.sources [] [] ms hok m hm with h | ⟨hp, _⟩
  · simp at h
  · rcases prepare_ok_elim m mgr.force_remote hp with ⟨repo, h1, h2, _⟩
    exact ⟨hp, repo, h1, h2⟩

/-- Claim C4: given an open repository rooted at the source with a clean
tree, validation fails with the remote-name conflict exactly when the
configured remote name is taken, its url differs from the computed
mirror url, and force-remote is off; a candidate failing this way is
never in the accepted mirror list, so it is excluded before any
filesystem or remote mutation. -/
theorem c4_remote_name_conflict (openRepo : Path → Option Repo)
    (rn source dest : String) (force : Bool) (repo : Repo)
    (hrepo : (mkMirror openRepo rn source dest).repo = some repo)
    (hroot : repo.working_dir = source)
    (hclean : repo.dirty = false) :
    ((mkMirror openRepo rn source dest).prepare force
        = .error .RemoteNameConflict
      ↔ (rn ∈ repo.remoteNames
          ∧ repo.remoteUrl rn ≠ some (mkMirror openRepo rn source dest).remote_url
          ∧ force = false))
    ∧ ((mkMirror openRepo rn source dest).prepare force
          = .error .RemoteNameConflict →
        ∀ (mgr : BackupManager) (ms : List Mirror),
          mgr.remote_name = rn → mgr.dest = dest → mgr.force_remote = force →
          (mgr.build_mirrors openRepo).result = .ok ms →
          mkMirror openRepo rn source dest ∉ ms) := by
  constructor
  · rw [prepare_eval _ repo force hrepo]
    simp only [mkMirror_source, mkMirror_remote_name]
    rw [if_neg (show ¬(source ≠ repo.working_dir) from not_not_intro hroot.symm),
      if_neg (show ¬(repo.dirty = true) by rw [hclean]; exact Bool.false_ne_true)]
    by_cases hc : rn ∈ repo.remoteNames
      ∧ repo.remoteUrl rn ≠ some (mkMirror openRepo rn source dest).remote_url
      ∧ force = false
    · rw [if_pos hc]
      simp [hc]
    · rw [if_neg hc]
      simp [hc]
  · intro hconf mgr ms _ _ hforce hok hmem
    rcases buildLoop_ok_mem openRepo mgr mgr.sources [] [] ms hok _ hmem with h | ⟨hp, _⟩
    · simp at h
    · rw [hforce, hconf] at hp
      simp at hp

/-- Claim C5: a dirty source repository (open, rooted at the source) is
rejected by validation with the dirty-source error; consequently its
mirror is never in the accepted list and its source never has `update()`
invoked on it, so no filesystem or remote mutation happens for it. -/
theorem c5_dirty_source_rejected (openRepo : Path → Option Repo)
    (rn source dest : String) (force : Bool) (repo : Repo)
    (hrepo : (mkMirror openRepo rn source dest).repo = some repo)
    (hroot : repo.working_dir = source)
    (hdirty : repo.dirty = true) :
    (mkMirror openRepo rn source dest).prepare force = .error .DirtySource
    ∧ (∀ (mgr : BackupManager) (ms : List Mirror) (pushOk : Path → Bool)
        (fs0 : List Path),
        mgr.remote_name = rn → mgr.dest = dest → mgr.force_remote = force →
        (mgr.build_mirrors openRepo).result = .ok ms →
        mkMirror openRepo rn source dest ∉ ms
          ∧ source ∉ (update_all_loop pushOk ms fs0 []).attempted) := by
  have hprep : (mkMirror openRepo rn source dest).prepare force
      = .error .DirtySource := by
    rw [prepare_eval _ repo force hrepo]
    simp only [mkMirror_source, mkMirror_remote_name]
    rw [if_neg (show ¬(source ≠ repo.working_dir) from not_not_intro hroot.symm),
      if_pos hdirty]
  refine ⟨hprep, ?_⟩
  intro mgr ms pushOk fs0 hrn hdest hforce hok
  have hnotmem : mkMirror openRepo rn source dest ∉ ms := by
    intro hmem
    rcases buildLoop_ok_mem openRepo mgr mgr.sources [] [] ms hok _ hmem with h | ⟨hp, _⟩
    · simp at h
    · rw [hforce, hprep] at hp
      simp at hp
  refine ⟨hnotmem, ?_⟩
  intro hatt
  rcases attempted_mem pushOk ms fs0 [] source hatt with h | ⟨m2, hm2, hsrc2⟩
  · simp at h
  · rcases buildLoop_ok_mem openRepo mgr mgr.sources [] [] ms hok _ hm2 with h | ⟨_, s2, _, hmk⟩
    · simp at h
    · have hs2 : m2.source = s2 := by rw [hmk]; exact rfl
      rw [hs2] at hsrc2
      rw [hsrc2, hrn, hdest] at hmk
      rw [hmk] at hm2
      exact hnotmem hm2

/-- Unfolding of one `build_mirrors` loop step on a candidate whose
validation fails. -/
theorem buildLoop_cons_error (openRepo : Path → Option Repo)
    (mgr : BackupManager) (s : Path) (rest : List Path) (ms : List Mirror)
    (rs : List (Path × PrepareFailure)) (f : PrepareFailure)
    (hf : (mkMirror openRepo mgr.remote_name s mgr.dest).prepare mgr.force_remote
        = .error f) :
    buildLoop openRepo mgr (s :: rest) ms rs
      = if f.isWarning && mgr.recursive then buildLoop openRepo mgr rest ms rs
        else buildLoop openRepo mgr rest ms (rs ++ [(s, f)]) := by
  rw [buildLoop]
  split
  next f2 hf2 =>
    rw [hf] at hf2
    injection hf2 with h
    rw [h]
  next u hok =>
    rw [hf] at hok
    exact Except.noConfusion hok

/-- Claim C6: `build_mirrors` handles validation failures by kind and
mode: the dirty-source and remote-name-conflict errors are recorded as
failures and the candidate excluded in both modes; the
not-version-controlled and nested-root warnings are recorded only in
non-recursive mode and silently dropped in recursive mode; in every case
the loop continues with the remaining candidates and the accepted list
is unchanged. -/
theorem c6_build_failure_handling (openRepo : Path → Option Repo)
    (mgr : BackupManager) (s : Path) (rest : List Path) (ms : List Mirror)
    (rs : List (Path × PrepareFailure)) (f : PrepareFailure)
    (hf : (mkMirror openRepo mgr.remote_name s mgr.dest).prepare mgr.force_remote
        = .error f) :
    ((f = .DirtySource ∨ f = .RemoteNameConflict) →
      buildLoop openRepo mgr (s :: rest) ms rs
        = buildLoop openRepo mgr rest ms (rs ++ [(s, f)]))
    ∧ ((f = .NotVersionControlled ∨ f = .NestedOrMismatchedRoot) →
      buildLoop openRepo mgr (s :: rest) ms rs
        = (if mgr.recursive then buildLoop openRepo mgr rest ms rs
           else buildLoop openRepo mgr rest ms (rs ++ [(s, f)]))) := by
  constructor
  · intro hkind
    have hw : f.isWarning = false := by
      rcases hkind with h | h <;> rw [h] <;> rfl
    rw [buildLoop_cons_error openRepo mgr s rest ms rs f hf, hw]
    simp
  · intro hkind
    have hw : f.isWarning = true := by
      rcases hkind with h | h <;> rw [h] <;> rfl
    rw [buildLoop_cons_error openRepo mgr s rest ms rs f hf, hw]
    simp

/-! ### Concrete repositories and managers used by the witnesses -/

def repoDirty : Repo := ⟨"/work/dirty", true, []⟩

def openRepoDirty : Path → Option Repo :=
  fun p => if p = "/work/dirty" then some repoDirty else none

def mgrD : BackupManager :=
  mkBackupManager id (fun _ => []) "gitbackup" ["/work/dirty"] "/backup" false false

def repoConf : Repo := ⟨"/work/conf", false, [("gitbackup", "elsewhere")]⟩

def openRepoConf : Path → Option Repo :=
  fun p => if p = "/work/conf" then some repoConf else none

def mgrW : BackupManager :=
  mkBackupManager id (fun _ => []) "gitbackup" ["/work/alpha"] "/backup" false false

/-- Witness for C4: a clean source whose `gitbackup` remote points
elsewhere is rejected with the remote-name conflict when force-remote is
off. -/
theorem c4_remote_name_conflict_witness :
    (mkMirror openRepoConf "gitbackup" "/work/conf" "/backup").prepare false
      = Except.error PrepareFailure.RemoteNameConflict :=
  (c4_remote_name_conflict openRepoConf "gitbackup" "/work/conf" "/backup" false
      repoConf (by decide) (by decide) (by decide)).1.mpr
    ⟨by decide, by decide, rfl⟩

/-- Witness for C5: the theorem applied to a concrete dirty repository
and the manager that rejects it, whose accepted list is empty. -/
theorem c5_dirty_source_rejected_witness :
    (mkMirror openRepoDirty "gitbackup" "/work/dirty" "/backup").prepare false
        = Except.error PrepareFailure.DirtySource
    ∧ (mkMirror openRepoDirty "gitbackup" "/work/dirty" "/backup" ∉ ([] : List Mirror)
        ∧ "/work/dirty" ∉ (update_all_loop (fun _ => true) [] [] []).attempted) := by
  have h := c5_dirty_source_rejected openRepoDirty "gitbackup" "/work/dirty" "/backup"
    false repoDirty (by decide) (by decide) (by decide)
  exact ⟨h.1, h.2 mgrD [] (fun _ => true) [] rfl rfl rfl (by decide)⟩

/-- Witness for C6: the dirty-source failure is recorded and the loop
continues, at a concrete candidate list. -/
theorem c6_build_failure_handling_witness :
    buildLoop openRepoDirty mgrD ["/work/dirty"] [] []
      = buildLoop openRepoDirty mgrD [] [] [("/work/dirty", PrepareFailure.DirtySource)] :=
  (c6_build_failure_handling openRepoDirty mgrD "/work/dirty" [] [] []
      PrepareFailure.DirtySource (by decide)).1 (Or.inl rfl)

/-- Witness for C9: the theorem applied to a concrete accepted list. -/
theorem c9_accepted_mirrors_validated_witness :
    (mkMirror openRepoW "gitbackup" "/work/alpha" "/backup").prepare false = .ok ()
    ∧ ∃ repo, (mkMirror openRepoW "gitbackup" "/work/alpha" "/backup").repo = some repo
        ∧ repo.working_dir = (mkMirror openRepoW "gitbackup" "/work/alpha" "/backup").source :=
  c9_accepted_mirrors_validated openRepoW mgrW
    [mkMirror openRepoW "gitbackup" "/work/alpha" "/backup"] (by decide)
    (mkMirror openRepoW "gitbackup" "/work/alpha" "/backup") (by simp)

/-! ### Lemmas about recursive discovery -/

theorem foldl_walkStep_mem (l : List Path) :
    ∀ (acc : List Path) (x : Path),
      x ∈ l.foldl walkStep acc
        ↔ x ∈ acc ∨ (x ∈ l ∧ strIn ".git" x = false) := by
  induction l with
  | nil => intro acc x; simp
  | cons d t ih =>
    intro acc x
    rw [List.foldl_cons, ih]
    unfold walkStep
    by_cases hg : strIn ".git" d = true
    · rw [if_pos hg]
      constructor
      · rintro (h | ⟨h1, h2⟩)
        · exact Or.inl h
        · exact Or.inr ⟨List.mem_cons_of_mem _ h1, h2⟩
      · rintro (h | ⟨h1, h2⟩)
        · exact Or.inl h
        · rcases List.mem_cons.mp h1 with h1 | h1
          · rw [h1] at h2; rw [h2] at hg; exact Bool.noConfusion hg
          · exact Or.inr ⟨h1, h2⟩
    · rw [if_neg hg]
      by_cases hd : d ∈ acc
      · rw [if_pos hd]
        constructor
        · rintro (h | ⟨h1, h2⟩)
          · exact Or.inl h
          · exact Or.inr ⟨List.mem_cons_of_mem _ h1, h2⟩
        · rintro (h | ⟨h1, h2⟩)
          · exact Or.inl h
          · rcases List.mem_cons.mp h1 with h1 | h1
            · rw [h1]; exact Or.inl hd
            · exact Or.inr ⟨h1, h2⟩
      · rw [if_neg hd]
        constructor
        · rintro (h | ⟨h1, h2⟩)
          · rcases List.mem_append.mp h with h | h
            · exact Or.inl h
            · rw [List.mem_singleton] at h
              refine Or.inr ⟨?_, ?_⟩
              · rw [h]; exact List.mem_cons_self _ _
              · rw [h]; exact Bool.of_not_eq_true hg
          · exact Or.inr ⟨List.mem_cons_of_mem _ h1, h2⟩
        · rintro (h | ⟨h1, h2⟩)
          · exact Or.inl (List.mem_append_left _ h)
          · rcases List.mem_cons.mp h1 with h1 | h1
            · rw [h1]; exact Or.inl (List.mem_append_right _ (List.mem_singleton.mpr rfl))
            · exact Or.inr ⟨h1, h2⟩

theorem foldl_walkStep_nodup (l : List Path) :
    ∀ acc : List Path, acc.Nodup → (l.foldl walkStep acc).Nodup := by
  induction l with
  | nil => intro acc hacc; exact hacc
  | cons d t ih =>
    intro acc hacc
    rw [List.foldl_cons]
    apply ih
    unfold walkStep
    split
    · exact hacc
    split
    · exact hacc
    · next hd => simp [List.nodup_append, hacc, hd]

theorem foldl_walkStep_order (l : List Path) :
    ∀ acc : List Path, ∃ r, l.foldl walkStep acc = acc ++ r
      ∧ r.Sublist (l.filter (fun p => !strIn ".git" p)) := by
  induction l with
  | nil => intro acc; exact ⟨[], by simp, by simp⟩
  | cons d t ih =>
    intro acc
    rw [List.foldl_cons, walkStep]
    by_cases hg : strIn ".git" d = true
    · rw [if_pos hg]
      rcases ih acc with ⟨r, h1, h2⟩
      refine ⟨r, h1, ?_⟩
      rw [List.filter_cons]
      simp only [hg, Bool.not_true, Bool.false_eq_true, if_false]
      exact h2
    · rw [if_neg hg]
      have hg2 : strIn ".git" d = false := Bool.of_not_eq_true hg
      by_cases hd : d ∈ acc
      · rw [if_pos hd]
        rcases ih acc with ⟨r, h1, h2⟩
        refine ⟨r, h1, ?_⟩
        rw [List.filter_cons]
        simp only [hg2, Bool.not_false, if_true]
        exact h2.trans (List.sublist_cons_self _ _)
      · rw [if_neg hd]
        rcases ih (acc ++ [d]) with ⟨r, h1, h2⟩
        refine ⟨d :: r, by rw [h1, List.append_assoc]; rfl, ?_⟩
        rw [List.filter_cons]
        simp only [hg2, Bool.not_false, if_true]
        exact List.cons_sublist_cons.mpr h2

/-- The double fold of the recursive discovery equals a single fold over
the concatenation of the walks. -/
theorem recursiveSources_eq_foldl (walk : Path → List Path) (sources : List Path) :
    recursiveSources walk sources
      = ((sources.map walk).flatten).foldl walkStep [] := by
  rw [recursiveSources, List.foldl_flatten, List.foldl_map]

/-- Claim C7: in recursive mode the candidate list consists exactly of
the directories of the walked subtrees whose path string does not
contain the `.git` segment; it is de-duplicated by exact path (no
duplicates remain) and preserves walk order (it is a sublist of the
filtered concatenated walks). The first conjunct ties the manager
construction to `recursiveSources`. -/
theorem c7_recursive_discovery (abspath : Path → Path) (walk : Path → List Path)
    (rn : String) (sources : List Path) (dest : Path) (force : Bool) :
    (mkBackupManager abspath walk rn sources dest true force).sources
        = recursiveSources walk (sources.map abspath)
    ∧ (∀ p, p ∈ recursiveSources walk sources
        ↔ (strIn ".git" p = false ∧ ∃ s ∈ sources, p ∈ walk s))
    ∧ (recursiveSources walk sources).Nodup
    ∧ (recursiveSources walk sources).Sublist
        (((sources.map walk).flatten).filter (fun p => !strIn ".git" p)) := by
  refine ⟨rfl, ?_, ?_, ?_⟩
  · intro p
    rw [recursiveSources_eq_foldl, foldl_walkStep_mem]
    simp only [List.not_mem_nil, false_or, List.mem_flatten, List.mem_map]
    constructor
    · rintro ⟨⟨l, ⟨s, hs, hl⟩, hp⟩, hg⟩
      exact ⟨hg, s, hs, by rw [← hl] at hp; exact hp⟩
    · rintro ⟨hg, s, hs, hp⟩
      exact ⟨⟨walk s, ⟨s, hs, rfl⟩, hp⟩, hg⟩
  · rw [recursiveSources_eq_foldl]
    exact foldl_walkStep_nodup _ [] List.nodup_nil
  · rw [recursiveSources_eq_foldl]
    rcases foldl_walkStep_order ((sources.map walk).flatten) [] with ⟨r, h1, h2⟩
    rw [h1, List.nil_append]
    exact h2

/-- A source whose walk is empty contributes nothing to the recursive
candidate list. -/
theorem recursiveSources_drop_empty (walk : Path → List Path)
    (as bs : List Path) (b : Path) (h : walk b = []) :
    recursiveSources walk (as ++ b :: bs) = recursiveSources walk (as ++ bs) := by
  unfold recursiveSources
  rw [List.foldl_append, List.foldl_cons, List.foldl_append, h]
  rfl

/-- Claim C10: in recursive mode, a requested source whose directory
walk yields no directories contributes zero candidates and produces no
report: the constructed manager is identical to the one built without
that source, so the whole run proceeds as if it had not been given. -/
theorem c10_empty_walk_ignored (abspath : Path → Path) (walk : Path → List Path)
    (rn : String) (xs ys : List Path) (s : Path) (dest : Path) (force : Bool)
    (h : walk (abspath s) = []) :
    mkBackupManager abspath walk rn (xs ++ s :: ys) dest true force
      = mkBackupManager abspath walk rn (xs ++ ys) dest true force := by
  unfold mkBackupManager
  simp only [if_true, BackupManager.mk.injEq, List.map_append, List.map_cons,
    and_true, true_and]
  exact recursiveSources_drop_empty walk (xs.map abspath) (ys.map abspath)
    (abspath s) h

def walkW : Path → List Path :=
  fun p => if p = "/roots" then ["/roots", "/roots/alpha"] else []

/-- Witness for C10: a non-existent requested source (empty walk) leaves
the constructed manager unchanged. -/
theorem c10_empty_walk_ignored_witness :
    mkBackupManager id walkW "gitbackup" (["/roots"] ++ "/gone" :: []) "/backup" true false
      = mkBackupManager id walkW "gitbackup" (["/roots"] ++ []) "/backup" true false :=
  c10_empty_walk_ignored id walkW "gitbackup" ["/roots"] [] "/gone" "/backup" false
    (by decide)

/-! ### Update failures in `update_all` -/

/-- Whether `update()` raises for this mirror: either the handle is
absent (attribute error) or the external mirrored push fails. -/
def updFails (pushOk : Path → Bool) (m : Mirror) : Bool :=
  m.repo.isNone || !pushOk m.source

theorem updateE_fst_ok (pushOk : Path → Bool) (m : Mirror) (fs : List Path)
    (h : updFails pushOk m = false) :
    (m.updateE pushOk fs).1 = Except.ok () := by
  rw [updFails] at h
  cases hr : m.repo with
  | none => rw [hr] at h; simp at h
  | some repo =>
    rw [hr] at h
    have hp : pushOk m.source = true := by
      revert h; cases pushOk m.source <;> simp
    rw [Mirror.updateE, hr]
    simp [hp]

theorem updateE_fst_error (pushOk : Path → Bool) (m : Mirror) (fs : List Path)
    (h : updFails pushOk m = true) :
    (m.updateE pushOk fs).1 = Except.error m.source := by
  rw [updFails] at h
  cases hr : m.repo with
  | none => rw [Mirror.updateE, hr]
  | some repo =>
    rw [hr] at h
    simp only [Option.isNone_some, Bool.false_or, Bool.not_eq_true'] at h
    rw [Mirror.updateE, hr]
    simp [h]

/-- Claim C2, corrected: `update_all` updates the accepted mirrors
sequentially, but a failure updating one mirror is NOT caught: the
exception propagates out of the loop, the failing mirror is the last one
attempted, and no mirror after it in the list has `update()` invoked. -/
theorem c2_update_failure_blocks_rest (pushOk : Path → Bool)
    (pre post : List Mirror) (m : Mirror) (fs att : List Path)
    (hpre : ∀ m2 ∈ pre, updFails pushOk m2 = false)
    (hm : updFails pushOk m = true) :
    (update_all_loop pushOk (pre ++ m :: post) fs att).failed = some m.source
    ∧ (update_all_loop pushOk (pre ++ m :: post) fs att).attempted
        = att ++ pre.map Mirror.source ++ [m.source] := by
  revert hpre
  induction pre generalizing fs att with
  | nil =>
    intro hpre
    rw [List.nil_append, update_all_loop, updateE_fst_error pushOk m fs hm]
    exact ⟨rfl, by simp⟩
  | cons a t ih =>
    intro hpre
    rw [List.cons_append, update_all_loop,
      updateE_fst_ok pushOk a fs (hpre a (List.mem_cons_self _ _))]
    rcases ih ((a.updateE pushOk fs).2) (att ++ [a.source])
        (fun m2 hm2 => hpre m2 (List.mem_cons_of_mem _ hm2)) with ⟨h1, h2⟩
    refine ⟨h1, ?_⟩
    rw [h2]
    simp

def repoBeta : Repo := ⟨"/work/beta", false, []⟩

def openRepoAB : Path → Option Repo := fun p =>
  if p = "/work/alpha" then some repoClean
  else if p = "/work/beta" then some repoBeta
  else none

def mgrAB : BackupManager :=
  mkBackupManager id (fun _ => [])
    "gitbackup" ["/work/alpha", "/work/beta"] "/backup" false false

def pushNotAlpha : Path → Bool := fun p => !(p == "/work/alpha")

/-- Counterexample to claim C2 as stated: with two accepted clean
mirrors and a push that fails on the first one, the run ends with the
uncaught failure and only the first source was attempted — the second
mirror is never updated, while the claim demands it still be
attempted. -/
theorem c2_failure_not_isolated_cex :
    (mgrAB.build_mirrors openRepoAB).result
      = Except.ok [mkMirror openRepoAB "gitbackup" "/work/alpha" "/backup",
          mkMirror openRepoAB "gitbackup" "/work/beta" "/backup"]
    ∧ (mgrAB.update_all openRepoAB pushNotAlpha []).2
      = Except.ok ⟨["/work/alpha"], some "/work/alpha", ["/backup/alpha"]⟩
    ∧ "/work/beta" ∉ (["/work/alpha"] : List Path) := by
  refine ⟨by decide, by decide, by decide⟩

/-- Witness for the corrected C2 theorem at a concrete mirror list. -/
theorem c2_update_failure_blocks_rest_witness :
    (update_all_loop pushNotAlpha
        ([] ++ (mkMirror openRepoAB "gitbackup" "/work/alpha" "/backup")
          :: [mkMirror openRepoAB "gitbackup" "/work/beta" "/backup"]) [] []).failed
      = some "/work/alpha"
    ∧ (update_all_loop pushNotAlpha
        ([] ++ (mkMirror openRepoAB "gitbackup" "/work/alpha" "/backup")
          :: [mkMirror openRepoAB "gitbackup" "/work/beta" "/backup"]) [] []).attempted
      = [] ++ ([] : List Mirror).map Mirror.source ++ ["/work/alpha"] :=
  c2_update_failure_blocks_rest pushNotAlpha []
    [mkMirror openRepoAB "gitbackup" "/work/beta" "/backup"]
    (mkMirror openRepoAB "gitbackup" "/work/alpha" "/backup") [] []
    (by intro m2 hm2; simp at hm2) (by decide)

/-! ### Duplicate project names (claim C1) -/

def repoOtherAlpha : Repo := ⟨"/other/alpha", false, []⟩

def openRepoC1 : Path → Option Repo := fun p =>
  if p = "/work/alpha" then some repoClean
  else if p = "/other/alpha" then some repoOtherAlpha
  else none

def mgrC1 : BackupManager :=
  mkBackupManager id (fun _ => [])
    "gitbackup" ["/work/alpha", "/other/alpha"] "/backup" false false

/-- Claim C1 names a code bug: `Mirror.__eq__` compares the working
directories of the source repositories, not the destination mirror
paths. Two distinct sources with the same final path segment share the
destination mirror path, yet compare unequal, so `build_mirrors` raises
no duplicate-project error: both mirrors are accepted and both are
updated into the same destination mirror. -/
theorem c1_duplicate_project_name_not_detected :
    (mkMirror openRepoC1 "gitbackup" "/work/alpha" "/backup").remote_path
      = (mkMirror openRepoC1 "gitbackup" "/other/alpha" "/backup").remote_path
    ∧ Mirror.beq (mkMirror openRepoC1 "gitbackup" "/work/alpha" "/backup")
        (mkMirror openRepoC1 "gitbackup" "/other/alpha" "/backup") = false
    ∧ (mgrC1.build_mirrors openRepoC1).result
      = Except.ok [mkMirror openRepoC1 "gitbackup" "/work/alpha" "/backup",
          mkMirror openRepoC1 "gitbackup" "/other/alpha" "/backup"]
    ∧ (mgrC1.update_all openRepoC1 (fun _ => true) []).2
      = Except.ok ⟨["/work/alpha", "/other/alpha"], none, ["/backup/alpha"]⟩ := by
  refine ⟨by decide, by decide, by decide, by decide⟩

end Gitbackup
